import Mathlib

/-!
Shallow embedding of the nikoget sources (src/nikoget): the download-context
state machine of common.py, the plugin loader and URL matcher of utils.py,
the audio descriptor model of common.py and the metadata patcher of
__main__.py.  Definitions translate the Python source; the theorems at the
end of the file settle the specification claims against them.
-/

namespace Nikoget

/-- Python exception values the modelled code can raise.  `brokenError`
models `BrokenError(caused_by)` (common.py 18-34), `nameError v` a
`NameError` on the undefined variable `v`, `attributeError a` an
`AttributeError` on a missing attribute `a`, `valueError` the failure of
`int(...)`, and `exc n` an arbitrary exception raised by third-party code
(module loading, network transfer). -/
inductive PyExc
  | nameError (var : String)
  | valueError
  | attributeError (attr : String)
  | brokenError (causedBy : PyExc)
  | exc (n : Nat)
  deriving DecidableEq

/-- Reports whether an `Except` computation returned normally. -/
def exceptIsOk {α : Type} : Except PyExc α → Bool
  | Except.ok _ => true
  | Except.error _ => false

/-- Models Python `int()` on the optionally signed decimal strings this code
base feeds it; `none` models a `ValueError`. -/
def digitsToNat : List Char → Option Nat
  | [] => none
  | l => l.foldl
      (fun acc c => match acc with
        | none => none
        | some n => if c.isDigit then some (n * 10 + (c.toNat - 48)) else none)
      (some 0)

/-- Python `int(s)` for an optional sign followed by decimal digits. -/
def pyInt (s : String) : Option Int :=
  match s.data with
  | '-' :: rest => (digitsToNat rest).map (fun n => -(n : Int))
  | '+' :: rest => (digitsToNat rest).map (fun n => (n : Int))
  | l => (digitsToNat l).map (fun n => (n : Int))

/-- Python `sep.join(l)` (used as `'/'.join(self.artist)` in common.py). -/
def pyJoin (sep : String) : List String → String
  | [] => ""
  | [a] => a
  | a :: b :: rest => a ++ sep ++ pyJoin sep (b :: rest)

/-- Python `s.replace('/', ', ')` (common.py 240): every slash character is
rewritten to a comma and a space. -/
def pyReplaceSlash (s : String) : String :=
  String.mk (s.data.flatMap (fun c => if c = '/' then [',', ' '] else [c]))

/-- Values stored in the mutagen tag dictionaries: lists of strings for the
ordinary tags and a list of integer pairs for the MP4 `trkn` atom. -/
inductive TagValue
  | strs (l : List String)
  | trkn (l : List (Int × Int))
  deriving DecidableEq

/-- Python `d[k] = v` on an insertion-ordered dictionary: overrides the value
in place when the key exists, appends otherwise. -/
def dictInsert (t : List (String × TagValue)) (k : String) (v : TagValue) :
    List (String × TagValue) :=
  if t.any (fun p => p.1 == k) then
    t.map (fun p => if p.1 == k then (k, v) else p)
  else
    t ++ [(k, v)]

/-- Python `k in d`. -/
def containsKey (t : List (String × TagValue)) (k : String) : Bool :=
  t.any (fun p => p.1 == k)

/-- Python `d.update(extra)`: inserts each key of `extra` in order. -/
def dictUpdate (t extra : List (String × TagValue)) : List (String × TagValue) :=
  extra.foldl (fun acc p => dictInsert acc p.1 p.2) t

/-- Models `_insert_if_sth` (common.py 11-16).  The source's `value is list`
test compares the value against the type object `list` and is never true for
an actual argument, so the function inserts `[value]` exactly when the value
is not `None`. -/
def insert_if_sth (t : List (String × TagValue)) (key : String) :
    Option String → List (String × TagValue)
  | none => t
  | some v => dictInsert t key (TagValue.strs [v])

/-- AudioDescriptor (common.py 177-260).  The constructor defaults of
`__init__` become field defaults.  The abstract methods `easymp3_extra` and
`mp4_extra` return per-resolver extra tag dictionaries and are modelled as
data fields (the netease resolver returns a `netease_id` entry); the
side-effecting abstract methods `download` and `patch_id3_extra` are not
needed by any claim and are left out. -/
structure AudioDescriptor where
  title : String := ""
  artist : List String := []
  album_artist : List String := []
  album : String := ""
  disc_number : Option String := none
  date : Option String := none
  track_number : String := "01"
  track_number_total : Option String := none
  comment : Option String := none
  lyrics : Option String := none
  easymp3_extra : List (String × TagValue) := []
  mp4_extra : List (String × TagValue) := []
  deriving DecidableEq

/-- ThinAudioDescriptor (common.py 156-175) with its upgrade operation. -/
structure ThinAudioDescriptor where
  title : String := ""
  artist : List String := []
  album : String := ""
  to_full : Unit → AudioDescriptor

/-- The `artist_str` property (common.py 230-232). -/
def AudioDescriptor.artist_str (d : AudioDescriptor) : String :=
  pyJoin "/" d.artist

/-- The `album_artist_str` property (common.py 234-236). -/
def AudioDescriptor.album_artist_str (d : AudioDescriptor) : String :=
  pyJoin "/" d.album_artist

/-- The `name` property (common.py 238-240):
`'{0} - {1}'.format(self.artist_str.replace('/', ', '), self.title)`. -/
def AudioDescriptor.name (d : AudioDescriptor) : String :=
  pyReplaceSlash d.artist_str ++ " - " ++ d.title

/-- The thin descriptor's `artist_str` property (common.py 162-164). -/
def ThinAudioDescriptor.artist_str (t : ThinAudioDescriptor) : String :=
  pyJoin "/" t.artist

/-- The thin descriptor's `name` property (common.py 166-168). -/
def ThinAudioDescriptor.name (t : ThinAudioDescriptor) : String :=
  pyReplaceSlash t.artist_str ++ " - " ++ t.title

/-- `as_easymp3_dict` (common.py 190-203). -/
def as_easymp3_dict (d : AudioDescriptor) : List (String × TagValue) :=
  let base : List (String × TagValue) :=
    [("title", TagValue.strs [d.title]),
     ("album", TagValue.strs [d.album]),
     ("artist", TagValue.strs [d.artist_str]),
     ("tracknumber", TagValue.strs [d.track_number])]
  let t := insert_if_sth base "albumartist" (some d.album_artist_str)
  let t := insert_if_sth t "discnumber" d.disc_number
  let t := insert_if_sth t "comment" d.comment
  let t := insert_if_sth t "date" d.date
  if d.easymp3_extra.isEmpty then t else dictUpdate t d.easymp3_extra

/-- The `trkn` total component: `int(self.track_number_total)` when set,
otherwise `0` (common.py 210). -/
def trknTotal (d : AudioDescriptor) : Except PyExc Int :=
  match d.track_number_total with
  | some s =>
    match pyInt s with
    | some n => Except.ok n
    | none => Except.error PyExc.valueError
  | none => Except.ok 0

/-- `as_mp4_dict` (common.py 205-221).  The `'disk' in temp_dict`
normalization step reads the undefined variable `temp_disk`, so reaching it
raises a `NameError`. -/
def as_mp4_dict (d : AudioDescriptor) : Except PyExc (List (String × TagValue)) :=
  match pyInt d.track_number with
  | none => Except.error PyExc.valueError
  | some tn =>
    match trknTotal d with
    | Except.error e => Except.error e
    | Except.ok tt =>
      let base : List (String × TagValue) :=
        [("©nam", TagValue.strs [d.title]),
         ("©ART", TagValue.strs [d.artist_str]),
         ("©alb", TagValue.strs [d.album]),
         ("trkn", TagValue.trkn [(tn, tt)])]
      let t := insert_if_sth base "aART" (some d.album_artist_str)
      let t := insert_if_sth t "disk" d.disc_number
      let t := insert_if_sth t "©cmt" d.comment
      let t := insert_if_sth t "©lyr" d.lyrics
      let t := insert_if_sth t "©day" d.date
      if containsKey t "disk" then
        Except.error (PyExc.nameError "temp_disk")
      else if d.mp4_extra.isEmpty then
        Except.ok t
      else
        Except.ok (dictUpdate t d.mp4_extra)

/-- A resolver plugin (common.py 267-301): the `match_url` predicate plus the
`id` and `version` properties.  The side-effecting `resolve_url` is not
needed by any claim. -/
structure Plugin where
  id : String
  version : String
  match_url : String → Bool

/-- A loaded Python module as the loader sees it: its name, its module-level
`plugin` binding when one is defined, and a module-level `match_url`
function when one is defined (the plugin modules of this repository define
none at module level, only the method on the plugin object). -/
structure PyModule where
  modName : String
  pluginAttr : Option Plugin
  matchUrlAttr : Option (String → Bool)

/-- One entry of `PluginLoader._plugins`.  The loader appends the module's
`plugin` attribute when present and then, unconditionally, the module object
itself (utils.py 25-31), so both kinds occur in the list. -/
inductive Entry
  | plugin (p : Plugin)
  | module (m : PyModule)

/-- A file in the plugins directory: its file name and the outcome of
`spec_from_file_location` and `exec_module`, which either produces a module
or raises. -/
structure ModuleFile where
  fname : String
  load : Except PyExc PyModule

/-- Python `module_name.startswith('__')`, the loader's dunder-file test
(utils.py 18). -/
def pyStartsWithDunder (s : String) : Bool :=
  match s.data with
  | '_' :: '_' :: _ => true
  | _ => false

/-- The entries that one successfully loaded module contributes to
`_plugins`: its `plugin` attribute when defined, then the module itself
(utils.py 25-31). -/
def entriesOfModule (m : PyModule) : List Entry :=
  (match m.pluginAttr with
   | some p => [Entry.plugin p]
   | none => []) ++ [Entry.module m]

/-- The state `PluginLoader.__init__` leaves behind: the `_plugins` list and
the recorded `_broken` error, if any. -/
structure PluginLoader where
  plugins : List Entry
  broken : Option PyExc

/-- The loading loop of `PluginLoader.__init__` (utils.py 17-31): dunder
files are skipped; a load failure records `BrokenError(exc)` in `_broken`
and breaks out of the loop; a successful load appends the module's entries
and the scan continues. -/
def loadAll : List ModuleFile → List Entry → PluginLoader
  | [], acc => ⟨acc, none⟩
  | f :: rest, acc =>
    if pyStartsWithDunder f.fname then loadAll rest acc
    else
      match f.load with
      | Except.error e => ⟨acc, some (PyExc.brokenError e)⟩
      | Except.ok m => loadAll rest (acc ++ entriesOfModule m)

/-- `PluginLoader.__init__(extra_plugins, directory)` over the directory's
file list. -/
def PluginLoader.init (extra : List Entry) (files : List ModuleFile) : PluginLoader :=
  loadAll files extra

/-- The `is_broken` property (utils.py 38-40). -/
def PluginLoader.is_broken (l : PluginLoader) : Bool :=
  l.broken.isSome

/-- `PluginLoader.__iter__` (utils.py 33-36): re-raises the recorded load
error when the loader is broken, otherwise yields the entries. -/
def PluginLoader.iter (l : PluginLoader) : Except PyExc (List Entry) :=
  match l.broken with
  | some e => Except.error e
  | none => Except.ok l.plugins

/-- Python's `plugin.match_url(url)` attribute access on one `_plugins`
entry: a plugin object answers its predicate; a bare module raises
`AttributeError` unless it defines a module-level `match_url`. -/
def entryMatchUrl (url : String) : Entry → Except PyExc Bool
  | Entry.plugin p => Except.ok (p.match_url url)
  | Entry.module m =>
    match m.matchUrlAttr with
    | some f => Except.ok (f url)
    | none => Except.error (PyExc.attributeError "match_url")

/-- The loop body of `match_url` (utils.py 42-46) over the entry list. -/
def findFirst (url : String) : List Entry → Except PyExc (Option Entry)
  | [] => Except.ok none
  | e :: rest =>
    match entryMatchUrl url e with
    | Except.error exc => Except.error exc
    | Except.ok true => Except.ok (some e)
    | Except.ok false => findFirst url rest

/-- `match_url(url, plugins)` (utils.py 42-46): iterating the loader
re-raises a recorded load error; otherwise the first entry accepting the
url is returned, or `none` when the entries are exhausted. -/
def match_url (url : String) (plugins : PluginLoader) : Except PyExc (Option Entry) :=
  match plugins.iter with
  | Except.error e => Except.error e
  | Except.ok entries => findFirst url entries

/-- The boolean value of one entry's `matches(url)` predicate, used only in
theorem statements (a bare module without `match_url` counts as false). -/
def entryAccepts (url : String) : Entry → Bool
  | Entry.plugin p => p.match_url url
  | Entry.module m =>
    match m.matchUrlAttr with
    | some f => f url
    | none => false

/-- An entry on which the `plugin.match_url(url)` attribute access of
`match_url` succeeds: a resolver object, or a module that defines a
module-level `match_url` function.  The bare module objects the loader
registers (utils.py 31) answer only in the second case, and the plugin
modules of this repository define no module-level `match_url`. -/
def entryAnswers : Entry → Bool
  | Entry.plugin _ => true
  | Entry.module m => m.matchUrlAttr.isSome

/-- The identity a registry entry shows: a plugin's `id` property or the
module's name. -/
def entryKey : Entry → String
  | Entry.plugin p => p.id
  | Entry.module m => m.modName

/-- The entries an error-free prefix of the plugin directory contributes,
used to state what a poisoned loader has registered. -/
def loadedEntries : List ModuleFile → List Entry
  | [] => []
  | f :: rest =>
    if pyStartsWithDunder f.fname then loadedEntries rest
    else
      match f.load with
      | Except.error _ => []
      | Except.ok m => entriesOfModule m ++ loadedEntries rest

/-- The subset of command-line arguments `patch_audio` reads. -/
structure Args where
  no_compress_cover : Bool

/-- Models `try_compress_image` (main 36-71): an image below the 2 MiB limit
is returned unchanged; above it the cv2 re-encode runs, modelled by the
supplied `compress` collaborator (the spec treats re-encoding as an
external size-bounded capability). -/
def try_compress_image (compress : List Nat → List Nat) (image_data : List Nat) : List Nat :=
  if image_data.length < 2097152 then image_data else compress image_data

/-- Mutagen's two MP4 cover formats.  The unsupported-mime branch of
`patch_audio` stores Python `None` as the format, modelled by `Option`. -/
inductive MP4CoverFormat
  | png
  | jpeg
  deriving DecidableEq

/-- The mutations `patch_audio` performs on the target file, in order:
the EasyMP3 tag update and first save, the ID3 lyrics and cover frames and
second save (main 204-216), or the MP4 tag update, cover atom and save
(main 222-236).  An empty trace means the file's bytes are untouched. -/
inductive FileOp
  | easyMp3Update (tags : List (String × TagValue))
  | mp3FirstSave
  | id3AddLyrics (text : String)
  | id3AddCover (mime : Option String) (data : List Nat)
  | mp3SecondSave
  | mp4Update (tags : List (String × TagValue))
  | mp4SetCover (data : List Nat) (format : Option MP4CoverFormat)
  | mp4Save
  deriving DecidableEq

/-- The non-fatal warnings `patch_audio` can log. -/
inductive Warning
  | coverFormatUnsupported (mime : Option String)
  | unsupportedAudioFormat (mime : String)
  deriving DecidableEq

/-- The cover bytes after the optional compression step at the top of
`patch_audio` (main 195-196). -/
def patchedCover (args : Args) (compress : List Nat → List Nat) (c : List Nat) : List Nat :=
  if args.no_compress_cover then c else try_compress_image compress c

/-- `patch_audio` (main 187-240): dispatches on the audio mime, returning
the trace of file mutations and the warnings logged, or the exception the
tag-dictionary construction raised.  The MP3 family writes the EasyMP3
tags, saves, adds the optional lyrics and cover frames and saves again; the
MP4 family writes the tag atoms and, when a cover is present, always
assigns the `covr` atom, with a `None` image format and a warning when the
cover mime is neither PNG nor JPEG; any other mime performs no mutation and
logs a warning. -/
def patch_audio (args : Args) (audio_mime : String) (d : AudioDescriptor)
    (cover : Option (List Nat)) (cover_mime : Option String)
    (compress : List Nat → List Nat) :
    Except PyExc (List FileOp × List Warning) :=
  let cover : Option (List Nat) :=
    match cover with
    | some c => some (patchedCover args compress c)
    | none => none
  if audio_mime ∈ (["audio/mp3", "audio/mpeg", "audio/mpeg3", "audio/x-mpeg-3"] : List String) then
    let lyricOps : List FileOp :=
      match d.lyrics with
      | some text => [FileOp.id3AddLyrics text]
      | none => []
    let coverOps : List FileOp :=
      match cover with
      | some c => [FileOp.id3AddCover cover_mime c]
      | none => []
    Except.ok ([FileOp.easyMp3Update (as_easymp3_dict d), FileOp.mp3FirstSave]
                ++ lyricOps ++ coverOps ++ [FileOp.mp3SecondSave], [])
  else if audio_mime ∈ (["audio/mp4", "video/mp4"] : List String) then
    match as_mp4_dict d with
    | Except.error e => Except.error e
    | Except.ok tags =>
      let covPart : List FileOp × List Warning :=
        match cover with
        | none => ([], [])
        | some c =>
          if cover_mime = some "image/png" then
            ([FileOp.mp4SetCover c (some MP4CoverFormat.png)], [])
          else if cover_mime = some "image/jpg" ∨ cover_mime = some "image/jpeg" then
            ([FileOp.mp4SetCover c (some MP4CoverFormat.jpeg)], [])
          else
            ([FileOp.mp4SetCover c none], [Warning.coverFormatUnsupported cover_mime])
      Except.ok ([FileOp.mp4Update tags] ++ covPart.1 ++ [FileOp.mp4Save], covPart.2)
  else
    Except.ok ([], [Warning.unsupportedAudioFormat audio_mime])

/-- True when the trace contains an assignment to the MP4 `covr` atom. -/
def hasMp4CoverWrite (ops : List FileOp) : Bool :=
  ops.any (fun op =>
    match op with
    | FileOp.mp4SetCover _ _ => true
    | _ => false)

/-- Whether a `patch_audio` run wrote the MP4 cover atom. -/
def coverWriteHappened : Except PyExc (List FileOp × List Warning) → Bool
  | Except.ok r => hasMp4CoverWrite r.1
  | Except.error _ => false

/-- TaskStatus (common.py 58-71). -/
inductive TaskStatus
  | pending
  | running
  | finished
  | error_occurred
  deriving DecidableEq

/-- The observable state of one DownloadContext (common.py 91-109) plus a
flag recording whether the worker currently holds the task's lock.  A
reader's property access (`run_status`, `error`, common.py 142-154)
acquires the same lock, so readers observe exactly the states in which
`lockHeld` is false. -/
structure CtxState where
  runStatus : TaskStatus
  error : Option PyExc
  mime : Option String
  headers_ready : Bool
  total_size : Nat
  downloaded_size : Nat
  lockHeld : Bool
  deriving DecidableEq

/-- The state `DownloadContext.__init__` establishes (common.py 102-109). -/
def initCtx : CtxState :=
  ⟨TaskStatus.pending, none, none, false, 0, 0, false⟩

/-- One atomic operation of the worker thread: the lock operations and the
individual field assignments the bootstrap code performs. -/
inductive WOp
  | acquire
  | release
  | setStatus (s : TaskStatus)
  | setErr (e : PyExc)
  | setMime (m : String)
  | setTotalSize (n : Nat)
  | setDownloadedSize (n : Nat)
  | addDownloadedSize (n : Nat)
  | setHeadersReady
  deriving DecidableEq

/-- The effect of one worker operation on the context state. -/
def stepOp (c : CtxState) : WOp → CtxState
  | WOp.acquire => { c with lockHeld := true }
  | WOp.release => { c with lockHeld := false }
  | WOp.setStatus s => { c with runStatus := s }
  | WOp.setErr e => { c with error := some e }
  | WOp.setMime m => { c with mime := some m }
  | WOp.setTotalSize n => { c with total_size := n }
  | WOp.setDownloadedSize n => { c with downloaded_size := n }
  | WOp.addDownloadedSize n => { c with downloaded_size := c.downloaded_size + n }
  | WOp.setHeadersReady => { c with headers_ready := true }

/-- Runs a list of worker operations from a state. -/
def execOps (c : CtxState) (ops : List WOp) : CtxState :=
  ops.foldl stepOp c

/-- Every state the context passes through while the worker executes the
operations, the start state included. -/
def ctxStates (c : CtxState) : List WOp → List CtxState
  | [] => [c]
  | op :: rest => c :: ctxStates (stepOp c op) rest

/-- The operations the wrapper in `DownloadContext.run` performs after the
transfer routine ends (common.py 127-133): on an error it takes the lock,
sets the status and the error together and releases; on success it sets the
status to finished without the lock. -/
def bootstrapTail : Option PyExc → List WOp
  | some e => [WOp.acquire, WOp.setStatus TaskStatus.error_occurred,
               WOp.setErr e, WOp.release]
  | none => [WOp.setStatus TaskStatus.finished]

/-- The full operation trace of the worker thread started by
`DownloadContext.run` (common.py 119-133): the status is set to running
without the lock, the transfer routine's own operations follow, and the
wrapper finishes with `bootstrapTail` according to the routine's outcome
(`result` is the exception the routine raised or returned, `none` on normal
completion). -/
def bootstrapOps (userOps : List WOp) (result : Option PyExc) : List WOp :=
  WOp.setStatus TaskStatus.running :: (userOps ++ bootstrapTail result)

/-- `DownloadContext.run` (common.py 111-140) as seen by the calling
thread: if the status is pending a worker thread with the bootstrap trace
is spawned, otherwise nothing happens and no thread is returned.  The call
itself never mutates the context. -/
def DownloadContext.run (c : CtxState) (userOps : List WOp) (result : Option PyExc) :
    CtxState × Option (List WOp) :=
  if c.runStatus = TaskStatus.pending then
    (c, some (bootstrapOps userOps result))
  else
    (c, none)

/-- The operations of the transfer routines in the netease resolver
(netease_cloud_music.py 263-305, both the audio and the cover routine):
total size from Content-Length, mime from Content-Type, a zeroed download
counter, the headers-ready flag, then one counter increment per streamed
chunk. -/
def ncmDownloadOps (contentLength : Nat) (contentType : String) (chunks : List Nat) : List WOp :=
  [WOp.setTotalSize contentLength, WOp.setMime contentType,
   WOp.setDownloadedSize 0, WOp.setHeadersReady]
  ++ chunks.map WOp.addDownloadedSize

/-- Operations a transfer routine may perform on the shared state: the
routines of this repository only assign mime, the size counters and the
headers-ready flag; they never touch the status, the error or the lock. -/
def benignOp : WOp → Bool
  | WOp.setMime _ => true
  | WOp.setTotalSize _ => true
  | WOp.setDownloadedSize _ => true
  | WOp.addDownloadedSize _ => true
  | WOp.setHeadersReady => true
  | _ => false

/-- A pure download-counter increment. -/
def isAddOp : WOp → Bool
  | WOp.addDownloadedSize _ => true
  | _ => false

/-- Operations that leave `mime` and `total_size` unchanged. -/
def mimeSafe : WOp → Bool
  | WOp.setMime _ => false
  | WOp.setTotalSize _ => false
  | _ => true

/-- Checks that every status or error mutation in the trace happens while
the worker holds the lock, the reading of claim C4. -/
def guardedWrites : Bool → List WOp → Bool
  | _, [] => true
  | _, WOp.acquire :: rest => guardedWrites true rest
  | _, WOp.release :: rest => guardedWrites false rest
  | locked, WOp.setStatus _ :: rest => locked && guardedWrites locked rest
  | locked, WOp.setErr _ :: rest => locked && guardedWrites locked rest
  | locked, _ :: rest => guardedWrites locked rest

/-- Checks the weaker discipline the code actually follows: the failure
transition's status write and the error write happen under the lock. -/
def failWritesLocked : Bool → List WOp → Bool
  | _, [] => true
  | _, WOp.acquire :: rest => failWritesLocked true rest
  | _, WOp.release :: rest => failWritesLocked false rest
  | locked, WOp.setStatus TaskStatus.error_occurred :: rest =>
      locked && failWritesLocked locked rest
  | locked, WOp.setErr _ :: rest => locked && failWritesLocked locked rest
  | locked, _ :: rest => failWritesLocked locked rest

/-- The status transitions claim C6 allows between two adjacent trace
states: no change, pending to running, or running to a terminal status. -/
def allowedStepB : TaskStatus → TaskStatus → Bool
  | TaskStatus.pending, TaskStatus.pending => true
  | TaskStatus.pending, TaskStatus.running => true
  | TaskStatus.running, TaskStatus.running => true
  | TaskStatus.running, TaskStatus.finished => true
  | TaskStatus.running, TaskStatus.error_occurred => true
  | TaskStatus.finished, TaskStatus.finished => true
  | TaskStatus.error_occurred, TaskStatus.error_occurred => true
  | _, _ => false

/-- The sequence of statuses along a worker execution. -/
def statusTrace (c : CtxState) (ops : List WOp) : List TaskStatus :=
  (ctxStates c ops).map (fun s => s.runStatus)

/-- The shape of the transfer routines this repository passes to
`DownloadContext`: either a header phase without the headers-ready flag
followed by the flag and then pure counter increments, or a routine that
stops (raises) before ever setting the flag. -/
def ncmShape (userOps : List WOp) : Prop :=
  (∃ pre post, userOps = pre ++ WOp.setHeadersReady :: post
     ∧ (∀ op ∈ pre, benignOp op = true ∧ op ≠ WOp.setHeadersReady)
     ∧ (∀ op ∈ post, isAddOp op = true))
  ∨ (∀ op ∈ userOps, benignOp op = true ∧ op ≠ WOp.setHeadersReady)

/-- A concrete descriptor used to evaluate the claims: the spec's family-A
scenario descriptor. -/
def d0 : AudioDescriptor :=
  { title := "T", artist := ["A"], album := "Alb", track_number := "03" }

/-- A descriptor with a disc number set. -/
def dDisc : AudioDescriptor :=
  { title := "T", artist := ["A"], album := "Alb", disc_number := some "2" }

/-- A descriptor with no artists. -/
def dEmptyArtists : AudioDescriptor :=
  { title := "T" }

/-- Arguments with cover compression disabled. -/
def args0 : Args :=
  ⟨true⟩

/-- The tag dictionary `as_mp4_dict` produces for `d0`. -/
def c1tags : List (String × TagValue) :=
  [("©nam", TagValue.strs ["T"]),
   ("©ART", TagValue.strs ["A"]),
   ("©alb", TagValue.strs ["Alb"]),
   ("trkn", TagValue.trkn [(3, 0)]),
   ("aART", TagValue.strs [""])]

/-- A concrete resolver that accepts the url `"uA"`. -/
def plA : Plugin :=
  ⟨"plA", "1.0", fun u => u == "uA"⟩

/-- The module defining `plA`. -/
def modA : PyModule :=
  ⟨"modA", some plA, none⟩

/-- A plugin file that loads successfully. -/
def fileA : ModuleFile :=
  ⟨"modA.py", Except.ok modA⟩

/-- A plugin file whose `exec_module` raises. -/
def fileBad : ModuleFile :=
  ⟨"modB.py", Except.error (PyExc.exc 7)⟩

/-- A concrete resolver that accepts the url `"uC"`. -/
def plC : Plugin :=
  ⟨"plC", "1.0", fun u => u == "uC"⟩

/-- The module defining `plC`. -/
def modC : PyModule :=
  ⟨"modC", some plC, none⟩

/-- A plugin file, after the broken one, that would load successfully. -/
def fileC : ModuleFile :=
  ⟨"modC.py", Except.ok modC⟩

/-- The registry built from a directory whose second plugin file raises
during load. -/
def brokenLoader : PluginLoader :=
  PluginLoader.init [] [fileA, fileBad, fileC]

/-- A resolver accepting only `"urlOne"`. -/
def wp1 : Plugin :=
  ⟨"wp1", "1.0", fun u => u == "urlOne"⟩

/-- A resolver accepting only `"urlTwo"`. -/
def wp2 : Plugin :=
  ⟨"wp2", "1.0", fun u => u == "urlTwo"⟩

/-- A healthy registry holding two resolvers in registration order. -/
def cleanLoader : PluginLoader :=
  PluginLoader.init [Entry.plugin wp1, Entry.plugin wp2] []

/-- A concrete thin descriptor. -/
def thin0 : ThinAudioDescriptor :=
  { title := "T", artist := ["A", "B"], to_full := fun _ => d0 }

/-- A context whose task already finished. -/
def ctxFinished : CtxState :=
  { initCtx with runStatus := TaskStatus.finished }

theorem pyReplaceSlash_append (x y : String) :
    pyReplaceSlash (x ++ y) = pyReplaceSlash x ++ pyReplaceSlash y := by
  cases x with
  | mk a =>
    cases y with
    | mk b =>
      show String.mk ((a ++ b).flatMap (fun c => if c = '/' then [',', ' '] else [c]))
        = String.mk (a.flatMap (fun c => if c = '/' then [',', ' '] else [c])
            ++ b.flatMap (fun c => if c = '/' then [',', ' '] else [c]))
      exact congrArg String.mk (List.flatMap_append a b _)

theorem replace_pyJoin : ∀ l : List String,
    pyReplaceSlash (pyJoin "/" l) = pyJoin ", " (l.map pyReplaceSlash)
  | [] => rfl
  | [_] => rfl
  | a :: b :: rest => by
    show pyReplaceSlash (a ++ "/" ++ pyJoin "/" (b :: rest)) = _
    rw [pyReplaceSlash_append, pyReplaceSlash_append, replace_pyJoin (b :: rest)]
    rfl

/-- C9: for both descriptor shapes the derived display name is the
slash-sanitized artists joined by the separator `", "`, concatenated with
`" - "` and the title (the source joins with `'/'` and then replaces every
slash, so a slash inside an artist name is sanitized too); it is always a
string, in particular `" - " ++ title` when the artist list is empty. -/
theorem c9_display_name (d : AudioDescriptor) (t : ThinAudioDescriptor) :
    d.name = pyJoin ", " (d.artist.map pyReplaceSlash) ++ " - " ++ d.title
    ∧ t.name = pyJoin ", " (t.artist.map pyReplaceSlash) ++ " - " ++ t.title
    ∧ (d.artist = [] → d.name = " - " ++ d.title) := by
  refine ⟨?_, ?_, ?_⟩
  · show pyReplaceSlash (pyJoin "/" d.artist) ++ " - " ++ d.title = _
    rw [replace_pyJoin]
  · show pyReplaceSlash (pyJoin "/" t.artist) ++ " - " ++ t.title = _
    rw [replace_pyJoin]
  · intro h
    show pyReplaceSlash (pyJoin "/" d.artist) ++ " - " ++ d.title = _
    rw [h]
    rfl

/-- Witness for C9 at a concrete descriptor with no artists. -/
theorem c9_witness : dEmptyArtists.name = " - " ++ "T" :=
  (c9_display_name dEmptyArtists thin0).2.2 rfl

theorem insert_if_sth_none (t : List (String × TagValue)) (k : String) :
    insert_if_sth t k none = t :=
  rfl

theorem insert_if_sth_some (t : List (String × TagValue)) (k s : String) :
    insert_if_sth t k (some s) = dictInsert t k (TagValue.strs [s]) :=
  rfl

theorem containsKey_map_keyfix (t : List (String × TagValue)) (k' : String)
    (v : TagValue) (k : String) :
    containsKey (t.map (fun p => if p.1 == k' then (k', v) else p)) k
      = containsKey t k := by
  induction t with
  | nil => rfl
  | cons p rest ih =>
    simp only [containsKey, List.map_cons, List.any_cons] at ih ⊢
    by_cases hp : (p.1 == k') = true
    · have hp1 : p.1 = k' := by simpa using hp
      rw [if_pos hp, ih, hp1]
    · rw [if_neg hp, ih]

theorem containsKey_dictInsert (t : List (String × TagValue)) (k' : String)
    (v : TagValue) (k : String) :
    containsKey (dictInsert t k' v) k = (containsKey t k || (k == k')) := by
  unfold dictInsert
  split
  next hc =>
    rw [containsKey_map_keyfix]
    by_cases hk : k = k'
    · subst hk
      have hck : containsKey t k = true := hc
      simp [hck]
    · simp [hk]
  next =>
    show containsKey (t ++ [(k', v)]) k = _
    simp only [containsKey, List.any_append, List.any_cons, List.any_nil,
      Bool.or_false]
    by_cases hk : k = k'
    · subst hk
      simp
    · have h1 : (k' == k) = false := by simp [Ne.symm hk]
      have h2 : (k == k') = false := by simp [hk]
      rw [h1, h2]

theorem containsKey_insert_if_sth (t : List (String × TagValue)) (k' k : String)
    (v : Option String) (hne : k ≠ k') :
    containsKey (insert_if_sth t k' v) k = containsKey t k := by
  cases v with
  | none => rfl
  | some s =>
    show containsKey (dictInsert t k' (TagValue.strs [s])) k = containsKey t k
    rw [containsKey_dictInsert]
    simp [hne]

/-- C10: whenever `disc_number` is set (and the track fields parse as
integers, which every raise-free path through the dictionary literal
requires), `as_mp4_dict` raises the `NameError` on the undefined variable
`temp_disk` of its disk normalization step before returning; with
`disc_number` unset it returns normally. -/
theorem c10_mp4_dict_name_error (d : AudioDescriptor)
    (ht : (pyInt d.track_number).isSome = true)
    (htt : d.track_number_total = none
      ∨ ∃ s, d.track_number_total = some s ∧ (pyInt s).isSome = true) :
    (d.disc_number.isSome = true →
      as_mp4_dict d = Except.error (PyExc.nameError "temp_disk"))
    ∧ (d.disc_number = none → exceptIsOk (as_mp4_dict d) = true) := by
  obtain ⟨tn, htn⟩ : ∃ tn, pyInt d.track_number = some tn :=
    Option.isSome_iff_exists.mp ht
  have httk : ∃ tt, trknTotal d = Except.ok tt := by
    rcases htt with h | ⟨s, hs, hsome⟩
    · exact ⟨0, by simp [trknTotal, h]⟩
    · obtain ⟨n, hn⟩ := Option.isSome_iff_exists.mp hsome
      exact ⟨n, by simp [trknTotal, hs, hn]⟩
  obtain ⟨tt, httk⟩ := httk
  constructor
  · intro hdisc
    obtain ⟨ds, hds⟩ := Option.isSome_iff_exists.mp hdisc
    have hcont : containsKey
        (insert_if_sth (insert_if_sth (insert_if_sth
          (insert_if_sth (insert_if_sth
            [("©nam", TagValue.strs [d.title]),
             ("©ART", TagValue.strs [d.artist_str]),
             ("©alb", TagValue.strs [d.album]),
             ("trkn", TagValue.trkn [(tn, tt)])]
            "aART" (some d.album_artist_str))
            "disk" d.disc_number)
            "©cmt" d.comment)
            "©lyr" d.lyrics)
            "©day" d.date) "disk" = true := by
      rw [containsKey_insert_if_sth _ _ _ _ (by decide),
          containsKey_insert_if_sth _ _ _ _ (by decide),
          containsKey_insert_if_sth _ _ _ _ (by decide), hds,
          insert_if_sth_some, containsKey_dictInsert]
      simp
    simp only [as_mp4_dict, htn, httk, hcont, if_true]
  · intro hdisc
    have hcont : containsKey
        (insert_if_sth (insert_if_sth (insert_if_sth
          (insert_if_sth (insert_if_sth
            [("©nam", TagValue.strs [d.title]),
             ("©ART", TagValue.strs [d.artist_str]),
             ("©alb", TagValue.strs [d.album]),
             ("trkn", TagValue.trkn [(tn, tt)])]
            "aART" (some d.album_artist_str))
            "disk" d.disc_number)
            "©cmt" d.comment)
            "©lyr" d.lyrics)
            "©day" d.date) "disk" = false := by
      rw [containsKey_insert_if_sth _ _ _ _ (by decide),
          containsKey_insert_if_sth _ _ _ _ (by decide),
          containsKey_insert_if_sth _ _ _ _ (by decide), hdisc,
          insert_if_sth_none, insert_if_sth_some, containsKey_dictInsert]
      simp [containsKey]
    simp only [as_mp4_dict, htn, httk, hcont, Bool.false_eq_true, if_false]
    cases hb : d.mp4_extra.isEmpty <;> simp [hb, exceptIsOk]

/-- Witness for C10: the disc-number descriptor raises the NameError, the
disc-free descriptor returns normally. -/
theorem c10_witness :
    as_mp4_dict dDisc = Except.error (PyExc.nameError "temp_disk")
    ∧ exceptIsOk (as_mp4_dict d0) = true := by
  constructor
  · exact (c10_mp4_dict_name_error dDisc (by decide) (Or.inl rfl)).1 (by decide)
  · exact (c10_mp4_dict_name_error d0 (by decide) (Or.inl rfl)).2 rfl

/-- C3 counterexample: the registry the loader builds from one plugin file
holds the resolver and then the bare module object (utils.py 25-31); the
registry is not poisoned and the only registered resolver rejects the url,
yet match_url raises AttributeError at the bare module entry instead of
returning none — refuting the claimed none-on-exhaustion. -/
theorem c3_counterexample :
    (PluginLoader.init [] [fileA]).broken = none
    ∧ (PluginLoader.init [] [fileA]).plugins
        = [Entry.plugin plA, Entry.module modA]
    ∧ plA.match_url "nomatch" = false
    ∧ match_url "nomatch" (PluginLoader.init [] [fileA])
        = Except.error (PyExc.attributeError "match_url") :=
  ⟨rfl, rfl, rfl, rfl⟩

theorem findFirst_skip (url : String) : ∀ pre : List Entry,
    (∀ x ∈ pre, entryAnswers x = true ∧ entryAccepts url x = false) →
    ∀ rest : List Entry, findFirst url (pre ++ rest) = findFirst url rest
  | [], _, _ => rfl
  | x :: pre, h, rest => by
    have hx := h x (List.mem_cons_self _ _)
    have ih := findFirst_skip url pre
      (fun y hy => h y (List.mem_cons_of_mem _ hy)) rest
    cases x with
    | plugin p =>
      have hacc : p.match_url url = false := hx.2
      simp [findFirst, entryMatchUrl, hacc, ih]
    | module m =>
      obtain ⟨f, hf⟩ := Option.isSome_iff_exists.mp hx.1
      have hacc : f url = false := by
        have hx2 := hx.2
        simp [entryAccepts, hf] at hx2
        exact hx2
      simp [findFirst, entryMatchUrl, hf, hacc, ih]

/-- C3 amended: on a non-poisoned registry, match_url iterates the
registered entries in registration order.  It returns the first entry
whose predicate accepts the url provided every earlier entry can answer
its predicate, and returns none when every registered entry answers and
rejects; but when it reaches a bare module entry without a module-level
match_url before any match — which happens on every registry the loader
builds from a plugin directory, since the loader registers the bare module
right after its plugin — it raises AttributeError instead of returning
none.  The outcome is a function of the registration order and the
predicates, hence deterministic. -/
theorem c3_amended (url : String) (L : PluginLoader) (h1 : L.broken = none) :
    (∀ pre e rest, L.plugins = pre ++ e :: rest →
        entryAccepts url e = true →
        (∀ x ∈ pre, entryAnswers x = true ∧ entryAccepts url x = false) →
        match_url url L = Except.ok (some e))
    ∧ ((∀ x ∈ L.plugins, entryAnswers x = true ∧ entryAccepts url x = false) →
        match_url url L = Except.ok none)
    ∧ (∀ pre m rest, L.plugins = pre ++ Entry.module m :: rest →
        m.matchUrlAttr = none →
        (∀ x ∈ pre, entryAnswers x = true ∧ entryAccepts url x = false) →
        match_url url L = Except.error (PyExc.attributeError "match_url")) := by
  have hmu : match_url url L = findFirst url L.plugins := by
    simp [match_url, PluginLoader.iter, h1]
  refine ⟨?_, ?_, ?_⟩
  · intro pre e rest hsplit hacc hpre
    rw [hmu, hsplit, findFirst_skip url pre hpre]
    cases e with
    | plugin p =>
      have hp : p.match_url url = true := hacc
      simp [findFirst, entryMatchUrl, hp]
    | module m =>
      cases hattr : m.matchUrlAttr with
      | none => simp [entryAccepts, hattr] at hacc
      | some f =>
        have hf : f url = true := by simpa [entryAccepts, hattr] using hacc
        simp [findFirst, entryMatchUrl, hattr, hf]
  · intro hall
    have hskip := findFirst_skip url L.plugins hall []
    rw [List.append_nil] at hskip
    rw [hmu, hskip]
    rfl
  · intro pre m rest hsplit hattr hpre
    rw [hmu, hsplit, findFirst_skip url pre hpre]
    simp [findFirst, entryMatchUrl, hattr]

/-- Witness for C3 amended: on the loader-built single-plugin registry a
url the resolver accepts returns that resolver (the bare module sits after
it), and on a registry of two resolver entries an unmatched url yields
none. -/
theorem c3_witness :
    match_url "uA" (PluginLoader.init [] [fileA])
        = Except.ok (some (Entry.plugin plA))
    ∧ match_url "nope" cleanLoader = Except.ok none := by
  constructor
  · exact (c3_amended "uA" (PluginLoader.init [] [fileA]) rfl).1
      [] (Entry.plugin plA) [Entry.module modA] rfl rfl
      (fun x hx => absurd hx (List.not_mem_nil x))
  · exact (c3_amended "nope" cleanLoader rfl).2.1 (by
      intro x hx
      simp [cleanLoader, PluginLoader.init, loadAll] at hx
      rcases hx with rfl | rfl <;> exact ⟨rfl, rfl⟩)

/-- C2 counterexample: in a directory of three plugin files where the
second raises during load, the third resolver is never registered (the
loader records the error and breaks out of its loop, utils.py 27-29), and
match_url on a url that only the third resolver accepts raises the
recorded BrokenError instead of succeeding — refuting both that discovery
of the remaining resolvers proceeds and that match still succeeds. -/
theorem c2_counterexample :
    plC.match_url "uC" = true
    ∧ brokenLoader.plugins.map entryKey = ["plA", "modA"]
    ∧ match_url "uC" brokenLoader
        = Except.error (PyExc.brokenError (PyExc.exc 7)) :=
  ⟨rfl, rfl, rfl⟩

theorem loadAll_broken (f : ModuleFile) (rest : List ModuleFile) (e : PyExc)
    (hf1 : pyStartsWithDunder f.fname = false)
    (hf2 : f.load = Except.error e) :
    ∀ good : List ModuleFile,
    (∀ m ∈ good, pyStartsWithDunder m.fname = true ∨ ∃ pm, m.load = Except.ok pm) →
    ∀ extra : List Entry,
    loadAll (good ++ f :: rest) extra
      = ⟨extra ++ loadedEntries good, some (PyExc.brokenError e)⟩
  | [], _, extra => by
    show loadAll (f :: rest) extra = _
    simp [loadAll, hf1, hf2, loadedEntries]
  | g :: gs, h, extra => by
    have ih := loadAll_broken f rest e hf1 hf2 gs
      (fun m hm => h m (List.mem_cons_of_mem _ hm))
    by_cases hgd : pyStartsWithDunder g.fname = true
    · show loadAll (g :: (gs ++ f :: rest)) extra = _
      simp only [loadAll, hgd, if_true, loadedEntries]
      exact ih extra
    · rcases h g (List.mem_cons_self _ _) with hd | ⟨pm, hpm⟩
      · exact absurd hd hgd
      · have hgd' : pyStartsWithDunder g.fname = false := by
          simpa using hgd
        show loadAll (g :: (gs ++ f :: rest)) extra = _
        simp only [loadAll, hgd', hpm, loadedEntries, Bool.false_eq_true, if_false]
        rw [ih (extra ++ entriesOfModule pm), List.append_assoc]

/-- C2 amended: when loading one resolver fails during registry
construction, discovery stops at the broken resolver — the error-free
files before it are registered, the ones after it are not.  Construction
itself still returns normally with the error recorded (it is not raised at
registration time); iterating the registry re-raises the recorded
BrokenError, and match on the poisoned registry raises it instead of
consulting any remaining resolver's predicate. -/
theorem c2_amended (extra : List Entry) (good : List ModuleFile)
    (f : ModuleFile) (rest : List ModuleFile) (e : PyExc)
    (hgood : ∀ m ∈ good,
      pyStartsWithDunder m.fname = true ∨ ∃ pm, m.load = Except.ok pm)
    (hf1 : pyStartsWithDunder f.fname = false)
    (hf2 : f.load = Except.error e) :
    (PluginLoader.init extra (good ++ f :: rest)).plugins
        = extra ++ loadedEntries good
    ∧ (PluginLoader.init extra (good ++ f :: rest)).broken
        = some (PyExc.brokenError e)
    ∧ (PluginLoader.init extra (good ++ f :: rest)).iter
        = Except.error (PyExc.brokenError e)
    ∧ ∀ url, match_url url (PluginLoader.init extra (good ++ f :: rest))
        = Except.error (PyExc.brokenError e) := by
  have hload := loadAll_broken f rest e hf1 hf2 good hgood extra
  have hinit : PluginLoader.init extra (good ++ f :: rest)
      = ⟨extra ++ loadedEntries good, some (PyExc.brokenError e)⟩ := hload
  refine ⟨by rw [hinit], by rw [hinit], ?_, ?_⟩
  · rw [hinit]
    rfl
  · intro url
    rw [hinit]
    rfl

/-- Witness for C2 amended at the concrete three-file directory. -/
theorem c2_witness :
    (PluginLoader.init [] ([fileA] ++ fileBad :: [fileC])).plugins
        = [] ++ loadedEntries [fileA]
    ∧ match_url "uC" (PluginLoader.init [] ([fileA] ++ fileBad :: [fileC]))
        = Except.error (PyExc.brokenError (PyExc.exc 7)) := by
  have h := c2_amended [] [fileA] fileBad [fileC] (PyExc.exc 7)
    (by
      intro m hm
      simp at hm
      subst hm
      exact Or.inr ⟨modA, rfl⟩)
    rfl rfl
  exact ⟨h.1, h.2.2.2 "uC"⟩

/-- C1 counterexample: patching an MP4-family file with a cover of mime
"image/bmp" does not skip the cover image write — `patch_audio` still
assigns the covr atom (with a None image format, main 231-234), refuting
the claimed skip. -/
theorem c1_counterexample :
    coverWriteHappened
      (patch_audio args0 "audio/mp4" d0 (some [1, 2, 3]) (some "image/bmp")
        (fun b => b)) = true :=
  rfl

/-- C1 amended: patching an MP4-family file whose cover mime is neither PNG
nor JPEG surfaces a non-fatal warning and still applies the tag atoms, but
the cover write is not skipped: the covr atom is written with a None
(unsupported) image format. -/
theorem c1_amended (args : Args) (mime : String) (d : AudioDescriptor)
    (c : List Nat) (cm : Option String) (compress : List Nat → List Nat)
    (tags : List (String × TagValue))
    (hmime : mime = "audio/mp4" ∨ mime = "video/mp4")
    (hpng : cm ≠ some "image/png") (hjpg : cm ≠ some "image/jpg")
    (hjpeg : cm ≠ some "image/jpeg")
    (htags : as_mp4_dict d = Except.ok tags) :
    patch_audio args mime d (some c) cm compress
      = Except.ok ([FileOp.mp4Update tags,
                    FileOp.mp4SetCover (patchedCover args compress c) none,
                    FileOp.mp4Save],
                   [Warning.coverFormatUnsupported cm]) := by
  have hnot3 : mime ∉
      (["audio/mp3", "audio/mpeg", "audio/mpeg3", "audio/x-mpeg-3"] : List String) := by
    rcases hmime with h | h <;> subst h <;> decide
  have hin4 : mime ∈ (["audio/mp4", "video/mp4"] : List String) := by
    rcases hmime with h | h <;> subst h <;> decide
  simp only [patch_audio, if_neg hnot3, if_pos hin4, htags]
  simp [hpng, hjpg, hjpeg]

/-- Witness for C1 amended at the concrete bmp-cover input. -/
theorem c1_witness :
    patch_audio args0 "audio/mp4" d0 (some [9]) (some "image/bmp") (fun b => b)
      = Except.ok ([FileOp.mp4Update c1tags,
                    FileOp.mp4SetCover (patchedCover args0 (fun b => b) [9]) none,
                    FileOp.mp4Save],
                   [Warning.coverFormatUnsupported (some "image/bmp")]) :=
  c1_amended args0 "audio/mp4" d0 [9] (some "image/bmp") (fun b => b) c1tags
    (Or.inl rfl) (by decide) (by decide) (by decide) rfl

/-- C5: for a mime in neither the MP3-like nor the MP4-like family,
`patch_audio` performs no file mutation at all — the trace of file
operations is empty, so the bytes on disk are untouched — and logs the
non-fatal unsupported-format warning instead of raising. -/
theorem c5_unrecognized_no_mutation (args : Args) (mime : String)
    (d : AudioDescriptor) (cover : Option (List Nat)) (cm : Option String)
    (compress : List Nat → List Nat)
    (h1 : mime ∉
      (["audio/mp3", "audio/mpeg", "audio/mpeg3", "audio/x-mpeg-3"] : List String))
    (h2 : mime ∉ (["audio/mp4", "video/mp4"] : List String)) :
    patch_audio args mime d cover cm compress
      = Except.ok ([], [Warning.unsupportedAudioFormat mime]) := by
  simp only [patch_audio, if_neg h1, if_neg h2]

/-- Witness for C5 at the spec's example mime. -/
theorem c5_witness :
    patch_audio args0 "application/octet-stream" d0 none none (fun b => b)
      = Except.ok ([], [Warning.unsupportedAudioFormat "application/octet-stream"]) :=
  c5_unrecognized_no_mutation args0 "application/octet-stream" d0 none none
    (fun b => b) (by decide) (by decide)

theorem execOps_cons (c : CtxState) (op : WOp) (ops : List WOp) :
    execOps c (op :: ops) = execOps (stepOp c op) ops :=
  rfl

theorem execOps_append (c : CtxState) (a b : List WOp) :
    execOps c (a ++ b) = execOps (execOps c a) b := by
  simp [execOps, List.foldl_append]

theorem execOps_mem : ∀ (ops : List WOp) (c : CtxState),
    execOps c ops ∈ ctxStates c ops
  | [], c => by simp [ctxStates, execOps]
  | op :: rest, c => by
    simp only [ctxStates, List.mem_cons, execOps_cons]
    exact Or.inr (execOps_mem rest (stepOp c op))

theorem mem_ctxStates_append {s : CtxState} : ∀ (a : List WOp) (c : CtxState)
    (b : List WOp), s ∈ ctxStates c (a ++ b) →
    s ∈ ctxStates c a ∨ s ∈ ctxStates (execOps c a) b
  | [], c, b => fun h => Or.inr (by simpa [execOps] using h)
  | op :: rest, c, b => fun h => by
    simp only [List.cons_append, ctxStates, List.mem_cons] at h
    rcases h with h | h
    · exact Or.inl (by simp [ctxStates, h])
    · rcases mem_ctxStates_append rest (stepOp c op) b h with h' | h'
      · exact Or.inl (by simp [ctxStates, h'])
      · exact Or.inr (by simpa [execOps_cons] using h')

theorem stepOp_benign {op : WOp} (h : benignOp op = true) (c : CtxState) :
    (stepOp c op).runStatus = c.runStatus ∧ (stepOp c op).error = c.error
      ∧ (stepOp c op).lockHeld = c.lockHeld := by
  cases op with
  | acquire => simp [benignOp] at h
  | release => simp [benignOp] at h
  | setStatus s => simp [benignOp] at h
  | setErr e => simp [benignOp] at h
  | setMime m => exact ⟨rfl, rfl, rfl⟩
  | setTotalSize n => exact ⟨rfl, rfl, rfl⟩
  | setDownloadedSize n => exact ⟨rfl, rfl, rfl⟩
  | addDownloadedSize n => exact ⟨rfl, rfl, rfl⟩
  | setHeadersReady => exact ⟨rfl, rfl, rfl⟩

theorem ctxStates_benign : ∀ (ops : List WOp),
    (∀ op ∈ ops, benignOp op = true) → ∀ (c : CtxState), ∀ s ∈ ctxStates c ops,
    s.runStatus = c.runStatus ∧ s.error = c.error ∧ s.lockHeld = c.lockHeld
  | [], _, c, s, hs => by
    simp only [ctxStates, List.mem_singleton] at hs
    subst hs
    exact ⟨rfl, rfl, rfl⟩
  | op :: rest, h, c, s, hs => by
    simp only [ctxStates, List.mem_cons] at hs
    rcases hs with hs | hs
    · subst hs
      exact ⟨rfl, rfl, rfl⟩
    · have hop := stepOp_benign (h op (List.mem_cons_self _ _)) c
      have hrec := ctxStates_benign rest
        (fun o ho => h o (List.mem_cons_of_mem _ ho)) (stepOp c op) s hs
      exact ⟨hrec.1.trans hop.1, hrec.2.1.trans hop.2.1, hrec.2.2.trans hop.2.2⟩

theorem stepOp_mimeSafe {op : WOp} (h : mimeSafe op = true) (c : CtxState) :
    (stepOp c op).mime = c.mime ∧ (stepOp c op).total_size = c.total_size := by
  cases op with
  | setMime m => simp [mimeSafe] at h
  | setTotalSize n => simp [mimeSafe] at h
  | acquire => exact ⟨rfl, rfl⟩
  | release => exact ⟨rfl, rfl⟩
  | setStatus s => exact ⟨rfl, rfl⟩
  | setErr e => exact ⟨rfl, rfl⟩
  | setDownloadedSize n => exact ⟨rfl, rfl⟩
  | addDownloadedSize n => exact ⟨rfl, rfl⟩
  | setHeadersReady => exact ⟨rfl, rfl⟩

theorem ctxStates_mimeSafe : ∀ (ops : List WOp),
    (∀ op ∈ ops, mimeSafe op = true) → ∀ (c : CtxState), ∀ s ∈ ctxStates c ops,
    s.mime = c.mime ∧ s.total_size = c.total_size
  | [], _, c, s, hs => by
    simp only [ctxStates, List.mem_singleton] at hs
    subst hs
    exact ⟨rfl, rfl⟩
  | op :: rest, h, c, s, hs => by
    simp only [ctxStates, List.mem_cons] at hs
    rcases hs with hs | hs
    · subst hs
      exact ⟨rfl, rfl⟩
    · have hop := stepOp_mimeSafe (h op (List.mem_cons_self _ _)) c
      have hrec := ctxStates_mimeSafe rest
        (fun o ho => h o (List.mem_cons_of_mem _ ho)) (stepOp c op) s hs
      exact ⟨hrec.1.trans hop.1, hrec.2.trans hop.2⟩

theorem stepOp_hr_mono {op : WOp} (c : CtxState) (h : c.headers_ready = true) :
    (stepOp c op).headers_ready = true := by
  cases op <;> simp [stepOp, h]

theorem ctxStates_hr_mono : ∀ (ops : List WOp) (c : CtxState),
    c.headers_ready = true → ∀ s ∈ ctxStates c ops, s.headers_ready = true
  | [], c, hc, s, hs => by
    simp only [ctxStates, List.mem_singleton] at hs
    subst hs
    exact hc
  | op :: rest, c, hc, s, hs => by
    simp only [ctxStates, List.mem_cons] at hs
    rcases hs with hs | hs
    · subst hs
      exact hc
    · exact ctxStates_hr_mono rest (stepOp c op) (stepOp_hr_mono c hc) s hs

theorem stepOp_hr_const {op : WOp} (h : op ≠ WOp.setHeadersReady) (c : CtxState) :
    (stepOp c op).headers_ready = c.headers_ready := by
  cases op with
  | setHeadersReady => exact absurd rfl h
  | acquire => rfl
  | release => rfl
  | setStatus s => rfl
  | setErr e => rfl
  | setMime m => rfl
  | setTotalSize n => rfl
  | setDownloadedSize n => rfl
  | addDownloadedSize n => rfl

theorem ctxStates_hr_const : ∀ (ops : List WOp),
    (∀ op ∈ ops, op ≠ WOp.setHeadersReady) → ∀ (c : CtxState),
    ∀ s ∈ ctxStates c ops, s.headers_ready = c.headers_ready
  | [], _, c, s, hs => by
    simp only [ctxStates, List.mem_singleton] at hs
    subst hs
    rfl
  | op :: rest, h, c, s, hs => by
    simp only [ctxStates, List.mem_cons] at hs
    rcases hs with hs | hs
    · subst hs
      rfl
    · have hrec := ctxStates_hr_const rest
        (fun o ho => h o (List.mem_cons_of_mem _ ho)) (stepOp c op) s hs
      exact hrec.trans (stepOp_hr_const (h op (List.mem_cons_self _ _)) c)

theorem execOps_hr_iff : ∀ (ops : List WOp) (c : CtxState),
    (execOps c ops).headers_ready = true
      ↔ (c.headers_ready = true ∨ WOp.setHeadersReady ∈ ops)
  | [], c => by simp [execOps]
  | op :: rest, c => by
    rw [execOps_cons, execOps_hr_iff rest (stepOp c op)]
    cases op <;> simp [stepOp]

theorem execOps_status_ne (v : TaskStatus) : ∀ (ops : List WOp) (c : CtxState),
    (∀ s', WOp.setStatus s' ∈ ops → s' ≠ v) → c.runStatus ≠ v →
    (execOps c ops).runStatus ≠ v
  | [], _, _, hc => hc
  | op :: rest, c, h, hc => by
    rw [execOps_cons]
    refine execOps_status_ne v rest (stepOp c op)
      (fun s' hs' => h s' (List.mem_cons_of_mem _ hs')) ?_
    cases op with
    | setStatus s => exact h s (List.mem_cons_self _ _)
    | acquire => exact hc
    | release => exact hc
    | setErr e => exact hc
    | setMime m => exact hc
    | setTotalSize n => exact hc
    | setDownloadedSize n => exact hc
    | addDownloadedSize n => exact hc
    | setHeadersReady => exact hc

/-- C4 counterexample: on the worker trace of a concrete successful netease
transfer, not every status mutation happens under the lock — the
pending-to-running write (common.py 120) and the running-to-finished write
(common.py 133) are performed without acquiring it — refuting the claim
that status and error are only mutated while holding the task's lock. -/
theorem c4_counterexample :
    guardedWrites false
      (bootstrapOps (ncmDownloadOps 100 "audio/mpeg" [60, 40]) none) = false :=
  rfl

theorem failWritesLocked_benign : ∀ (u : List WOp),
    (∀ op ∈ u, benignOp op = true) → ∀ rest : List WOp,
    failWritesLocked false (u ++ rest) = failWritesLocked false rest
  | [], _, _ => rfl
  | op :: u, h, rest => by
    have ih := failWritesLocked_benign u
      (fun o ho => h o (List.mem_cons_of_mem _ ho)) rest
    have hop := h op (List.mem_cons_self _ _)
    cases op with
    | acquire => simp [benignOp] at hop
    | release => simp [benignOp] at hop
    | setStatus s => simp [benignOp] at hop
    | setErr e => simp [benignOp] at hop
    | setMime m => exact ih
    | setTotalSize n => exact ih
    | setDownloadedSize n => exact ih
    | addDownloadedSize n => exact ih
    | setHeadersReady => exact ih

/-- C4 amended: only the failure transition's status and error writes
happen under the lock (the pending-to-running and running-to-finished
status writes are unlocked), and the lock-taking readers still never
observe a torn combination: no observable state (one in which the worker
does not hold the lock) has status error_occurred with the error unset,
nor the error set while the status is running. -/
theorem c4_amended (userOps : List WOp) (result : Option PyExc)
    (h : ∀ op ∈ userOps, benignOp op = true) :
    failWritesLocked false (bootstrapOps userOps result) = true
    ∧ ∀ s ∈ ctxStates initCtx (bootstrapOps userOps result),
        s.lockHeld = false →
        (s.runStatus = TaskStatus.error_occurred → s.error ≠ none)
        ∧ (s.runStatus = TaskStatus.running → s.error = none) := by
  constructor
  · show failWritesLocked false (userOps ++ bootstrapTail result) = true
    rw [failWritesLocked_benign userOps h]
    cases result <;> rfl
  · intro s hs hlock
    simp only [bootstrapOps, ctxStates, List.mem_cons] at hs
    rcases hs with hs | hs
    · subst hs
      exact ⟨fun h' => by simp [initCtx] at h', fun _ => rfl⟩
    · rcases mem_ctxStates_append userOps _ (bootstrapTail result) hs with hmem | hmem
      · have hfields := ctxStates_benign userOps h _ s hmem
        refine ⟨fun h' => ?_, fun _ => hfields.2.1⟩
        rw [hfields.1] at h'
        simp [stepOp, initCtx] at h'
      · have hmid := ctxStates_benign userOps h
          (stepOp initCtx (WOp.setStatus TaskStatus.running))
          _ (execOps_mem userOps _)
        cases result with
        | none =>
          simp only [bootstrapTail, ctxStates, List.mem_cons,
            List.not_mem_nil, or_false] at hmem
          rcases hmem with hmem | hmem
          · subst hmem
            refine ⟨fun h' => ?_, fun _ => hmid.2.1⟩
            rw [hmid.1] at h'
            simp [stepOp, initCtx] at h'
          · subst hmem
            refine ⟨fun h' => ?_, fun h' => ?_⟩ <;>
              simp [stepOp, hmid.1, hmid.2.1, initCtx] at h' ⊢
        | some e =>
          simp only [bootstrapTail, ctxStates, List.mem_cons,
            List.not_mem_nil, or_false] at hmem
          rcases hmem with hmem | hmem | hmem | hmem | hmem <;> subst hmem
          · exact ⟨fun h' => by rw [hmid.1] at h'; simp [stepOp, initCtx] at h',
              fun _ => hmid.2.1⟩
          · simp [stepOp, hmid.2.2] at hlock
          · simp [stepOp, hmid.2.2] at hlock
          · simp [stepOp, hmid.2.2] at hlock
          · exact ⟨fun _ => by simp [stepOp], fun h' => by simp [stepOp] at h'⟩

/-- Witness for C4 amended: a concrete failing netease transfer keeps the
failure writes under the lock, and its final observable state pairs the
error_occurred status with a set error. -/
theorem c4_witness :
    failWritesLocked false
      (bootstrapOps (ncmDownloadOps 100 "audio/mpeg" [60, 40])
        (some (PyExc.exc 3))) = true
    ∧ ((execOps initCtx (bootstrapOps (ncmDownloadOps 100 "audio/mpeg" [60, 40])
          (some (PyExc.exc 3)))).runStatus = TaskStatus.error_occurred →
        (execOps initCtx (bootstrapOps (ncmDownloadOps 100 "audio/mpeg" [60, 40])
          (some (PyExc.exc 3)))).error ≠ none) := by
  have h := c4_amended (ncmDownloadOps 100 "audio/mpeg" [60, 40])
    (some (PyExc.exc 3)) (by decide)
  exact ⟨h.1, (h.2 _ (execOps_mem _ _) (by decide)).1⟩

theorem statusTrace_cons (c : CtxState) (op : WOp) (ops : List WOp) :
    statusTrace c (op :: ops) = c.runStatus :: statusTrace (stepOp c op) ops :=
  rfl

theorem statusTrace_head : ∀ (ops : List WOp) (c : CtxState),
    (statusTrace c ops).head? = some c.runStatus
  | [], _ => rfl
  | _ :: _, _ => rfl

theorem chainRun : ∀ (u : List WOp), (∀ op ∈ u, benignOp op = true) →
    ∀ (c : CtxState), c.runStatus = TaskStatus.running → ∀ result : Option PyExc,
    List.Chain' (fun a b => allowedStepB a b = true)
      (statusTrace c (u ++ bootstrapTail result))
  | [], _, c, hc, result => by
    cases result with
    | none =>
      simp [statusTrace, ctxStates, stepOp, hc, List.chain'_cons,
        List.chain'_singleton, allowedStepB]
    | some e =>
      simp [statusTrace, ctxStates, stepOp, hc, List.chain'_cons,
        List.chain'_singleton, allowedStepB]
  | op :: rest, h, c, hc, result => by
    rw [List.cons_append, statusTrace_cons, List.chain'_cons']
    have hop := stepOp_benign (h op (List.mem_cons_self _ _)) c
    have hstat : (stepOp c op).runStatus = TaskStatus.running := hop.1.trans hc
    constructor
    · intro y hy
      rw [statusTrace_head] at hy
      simp only [Option.mem_some_iff] at hy
      subst hy
      rw [hc, hstat]
      rfl
    · exact chainRun rest (fun o ho => h o (List.mem_cons_of_mem _ ho))
        (stepOp c op) hstat result

/-- C6: along the whole worker execution of a task (the transfer routine,
as in this repository, only touching mime, the sizes and the headers
flag), every adjacent pair of context states is either unchanged in status
or one of the allowed transitions pending-to-running, running-to-finished,
running-to-error_occurred; in particular finished and error_occurred are
terminal, so any concurrent reader observes the statuses monotonically
along pending, running, then one terminal status. -/
theorem c6_status_monotonic (userOps : List WOp) (result : Option PyExc)
    (h : ∀ op ∈ userOps, benignOp op = true) :
    List.Chain' (fun a b => allowedStepB a b = true)
      (statusTrace initCtx (bootstrapOps userOps result)) := by
  rw [bootstrapOps, statusTrace_cons, List.chain'_cons']
  constructor
  · intro y hy
    rw [statusTrace_head] at hy
    simp only [Option.mem_some_iff] at hy
    subst hy
    rfl
  · exact chainRun userOps h _ rfl result

/-- Witness for C6 at a concrete failing netease transfer. -/
theorem c6_witness :
    List.Chain' (fun a b => allowedStepB a b = true)
      (statusTrace initCtx
        (bootstrapOps (ncmDownloadOps 5 "audio/mpeg" [2, 3])
          (some (PyExc.exc 1)))) :=
  c6_status_monotonic _ _ (by decide)

/-- C8: calling run on a task whose status is not pending is a no-op — the
context is unchanged, no worker thread is spawned, and no error is raised
(the function returns normally); on a pending task a worker is spawned
whose first operation sets the status to running, after which the transfer
routine's operations run on that worker. -/
theorem c8_run_idempotent (c : CtxState) (userOps : List WOp)
    (result : Option PyExc) :
    (c.runStatus ≠ TaskStatus.pending →
      DownloadContext.run c userOps result = (c, none))
    ∧ (c.runStatus = TaskStatus.pending →
      DownloadContext.run c userOps result
        = (c, some (WOp.setStatus TaskStatus.running
            :: (userOps ++ bootstrapTail result)))
      ∧ (stepOp c (WOp.setStatus TaskStatus.running)).runStatus
          = TaskStatus.running) := by
  constructor
  · intro h
    simp [DownloadContext.run, h]
  · intro h
    exact ⟨by simp [DownloadContext.run, h, bootstrapOps], rfl⟩

/-- Witness for C8: run on a finished task is a no-op; run on a fresh task
spawns the worker whose trace starts with the running transition. -/
theorem c8_witness :
    DownloadContext.run ctxFinished (ncmDownloadOps 5 "audio/mpeg" [2]) none
      = (ctxFinished, none)
    ∧ DownloadContext.run initCtx (ncmDownloadOps 5 "audio/mpeg" [2]) none
      = (initCtx, some (WOp.setStatus TaskStatus.running
          :: (ncmDownloadOps 5 "audio/mpeg" [2] ++ bootstrapTail none))) := by
  refine ⟨(c8_run_idempotent ctxFinished _ none).1 (by decide), ?_⟩
  exact ((c8_run_idempotent initCtx _ none).2 rfl).1

theorem benign_ne_setStatus {op : WOp} (h : benignOp op = true) (s : TaskStatus) :
    op ≠ WOp.setStatus s := by
  cases op <;> simp [benignOp] at h ⊢

theorem isAdd_ne_setStatus {op : WOp} (h : isAddOp op = true) (s : TaskStatus) :
    op ≠ WOp.setStatus s := by
  cases op <;> simp [isAddOp] at h ⊢

theorem isAdd_mimeSafe {op : WOp} (h : isAddOp op = true) : mimeSafe op = true := by
  cases op <;> simp [isAddOp, mimeSafe] at h ⊢

theorem isAdd_ne_setHR {op : WOp} (h : isAddOp op = true) :
    op ≠ WOp.setHeadersReady := by
  cases op <;> simp [isAddOp] at h ⊢

theorem bootstrapTail_no_hr (r : Option PyExc) :
    WOp.setHeadersReady ∉ bootstrapTail r := by
  cases r <;> simp [bootstrapTail]

theorem bootstrapTail_mimeSafe (r : Option PyExc) :
    ∀ op ∈ bootstrapTail r, mimeSafe op = true := by
  cases r with
  | none =>
    intro op hop
    simp only [bootstrapTail, List.mem_singleton] at hop
    subst hop
    rfl
  | some e =>
    intro op hop
    simp only [bootstrapTail, List.mem_cons, List.not_mem_nil, or_false] at hop
    rcases hop with rfl | rfl | rfl | rfl <;> rfl

/-- C7: along any worker execution of a transfer routine of this
repository's shape, once the headers-ready flag is observed true at some
instant, the mime and the total size never change from that instant on
(and the flag stays true); and once the status is terminal, the
headers-ready flag never changes afterwards — so the flag cannot first
become true after a terminal status is reached. -/
theorem c7_headers_ready_stable (userOps : List WOp) (result : Option PyExc)
    (h : ncmShape userOps) (i : Nat) :
    ((execOps initCtx ((bootstrapOps userOps result).take i)).headers_ready = true →
      ∀ s ∈ ctxStates (execOps initCtx ((bootstrapOps userOps result).take i))
          ((bootstrapOps userOps result).drop i),
        s.headers_ready = true
        ∧ s.mime = (execOps initCtx ((bootstrapOps userOps result).take i)).mime
        ∧ s.total_size
            = (execOps initCtx ((bootstrapOps userOps result).take i)).total_size)
    ∧ (((execOps initCtx ((bootstrapOps userOps result).take i)).runStatus
            = TaskStatus.finished
        ∨ (execOps initCtx ((bootstrapOps userOps result).take i)).runStatus
            = TaskStatus.error_occurred) →
      ∀ s ∈ ctxStates (execOps initCtx ((bootstrapOps userOps result).take i))
          ((bootstrapOps userOps result).drop i),
        s.headers_ready
          = (execOps initCtx ((bootstrapOps userOps result).take i)).headers_ready) := by
  rcases h with ⟨pre, post, hEq, hPre, hPost⟩ | hAll
  · -- routine with a headers phase, the flag, then pure counter increments
    have hOps : bootstrapOps userOps result
        = (WOp.setStatus TaskStatus.running :: pre)
          ++ WOp.setHeadersReady :: (post ++ bootstrapTail result) := by
      simp [bootstrapOps, hEq, List.append_assoc]
    have hA : WOp.setHeadersReady ∉ WOp.setStatus TaskStatus.running :: pre := by
      intro hmem
      rcases List.mem_cons.mp hmem with hmem | hmem
      · exact WOp.noConfusion hmem
      · exact (hPre _ hmem).2 rfl
    constructor
    · intro hhr s hs
      have hmemHR : WOp.setHeadersReady ∈ (bootstrapOps userOps result).take i := by
        rcases (execOps_hr_iff _ initCtx).mp hhr with hinit | hmem
        · simp [initCtx] at hinit
        · exact hmem
      have hi : (WOp.setStatus TaskStatus.running :: pre).length < i := by
        by_contra hle
        rw [hOps, List.take_append_eq_append_take,
          Nat.sub_eq_zero_of_le (by omega), List.take_zero,
          List.append_nil] at hmemHR
        exact hA (List.take_subset _ _ hmemHR)
      have hdropSub : (bootstrapOps userOps result).drop i
          ⊆ post ++ bootstrapTail result := by
        rw [hOps, List.drop_append_eq_append_drop,
          List.drop_eq_nil_of_le (by omega), List.nil_append]
        obtain ⟨j, hj⟩ : ∃ j, i - (WOp.setStatus TaskStatus.running :: pre).length
            = j + 1 := ⟨_, (Nat.succ_pred_eq_of_pos (by omega)).symm⟩
        rw [hj, List.drop_succ_cons]
        exact List.drop_subset _ _
      have hdropSafe : ∀ op ∈ (bootstrapOps userOps result).drop i,
          mimeSafe op = true := by
        intro op hop
        rcases List.mem_append.mp (hdropSub hop) with hop | hop
        · exact isAdd_mimeSafe (hPost _ hop)
        · exact bootstrapTail_mimeSafe result _ hop
      exact ⟨ctxStates_hr_mono _ _ hhr s hs,
        (ctxStates_mimeSafe _ hdropSafe _ s hs).1,
        (ctxStates_mimeSafe _ hdropSafe _ s hs).2⟩
    · intro hterm s hs
      have hD : ∀ v, (v = TaskStatus.finished ∨ v = TaskStatus.error_occurred) →
          WOp.setStatus v ∉ WOp.setStatus TaskStatus.running :: userOps := by
        intro v hv hmem
        rcases List.mem_cons.mp hmem with hmem | hmem
        · cases hmem
          rcases hv with hv | hv <;> exact TaskStatus.noConfusion hv
        · rw [hEq] at hmem
          rcases List.mem_append.mp hmem with hmem | hmem
          · exact benign_ne_setStatus (hPre _ hmem).1 v rfl
          · rcases List.mem_cons.mp hmem with hmem | hmem
            · exact WOp.noConfusion hmem
            · exact isAdd_ne_setStatus (hPost _ hmem) v rfl
      obtain ⟨v, hv, hvterm⟩ : ∃ v,
          WOp.setStatus v ∈ (bootstrapOps userOps result).take i
          ∧ (v = TaskStatus.finished ∨ v = TaskStatus.error_occurred) := by
        rcases hterm with hterm | hterm
        · refine ⟨TaskStatus.finished, ?_, Or.inl rfl⟩
          by_contra hmem
          exact execOps_status_ne TaskStatus.finished _ initCtx
            (fun s' hs' hv => hmem (hv ▸ hs')) (by simp [initCtx]) hterm
        · refine ⟨TaskStatus.error_occurred, ?_, Or.inr rfl⟩
          by_contra hmem
          exact execOps_status_ne TaskStatus.error_occurred _ initCtx
            (fun s' hs' hv => hmem (hv ▸ hs')) (by simp [initCtx]) hterm
      have hOpsD : bootstrapOps userOps result
          = (WOp.setStatus TaskStatus.running :: userOps)
            ++ bootstrapTail result := by
        simp [bootstrapOps]
      have hi : (WOp.setStatus TaskStatus.running :: userOps).length < i := by
        by_contra hle
        rw [hOpsD, List.take_append_eq_append_take,
          Nat.sub_eq_zero_of_le (by omega), List.take_zero,
          List.append_nil] at hv
        exact hD v hvterm (List.take_subset _ _ hv)
      have hdropSub : (bootstrapOps userOps result).drop i
          ⊆ bootstrapTail result := by
        rw [hOpsD, List.drop_append_eq_append_drop,
          List.drop_eq_nil_of_le (by omega), List.nil_append]
        exact List.drop_subset _ _
      exact ctxStates_hr_const _
        (fun op hop hhr => bootstrapTail_no_hr result (hhr ▸ hdropSub hop)) _ s hs
  · -- routine that stops before ever setting the headers flag
    have hNoHR : WOp.setHeadersReady ∉ bootstrapOps userOps result := by
      intro hmem
      rcases List.mem_cons.mp hmem with hmem | hmem
      · exact WOp.noConfusion hmem
      · rcases List.mem_append.mp hmem with hmem | hmem
        · exact (hAll _ hmem).2 rfl
        · exact bootstrapTail_no_hr result hmem
    have hdropNoHR : ∀ op ∈ (bootstrapOps userOps result).drop i,
        op ≠ WOp.setHeadersReady := by
      intro op hop hhr
      exact hNoHR (hhr ▸ List.drop_subset _ _ hop)
    constructor
    · intro hhr
      rcases (execOps_hr_iff _ initCtx).mp hhr with hinit | hmem
      · simp [initCtx] at hinit
      · exact absurd (List.take_subset _ _ hmem) hNoHR
    · intro _ s hs
      exact ctxStates_hr_const _ hdropNoHR _ s hs

/-- Witness for C7: on a concrete successful netease transfer, at the
instant just after the headers became ready the flag is true, and the mime
observed at the end of the transfer equals the mime at that instant. -/
theorem c7_witness :
    (execOps initCtx ((bootstrapOps (ncmDownloadOps 10 "audio/mpeg" [4, 6])
        none).take 6)).headers_ready = true
    ∧ (execOps initCtx (bootstrapOps (ncmDownloadOps 10 "audio/mpeg" [4, 6])
        none)).mime
      = (execOps initCtx ((bootstrapOps (ncmDownloadOps 10 "audio/mpeg" [4, 6])
          none).take 6)).mime := by
  have hshape : ncmShape (ncmDownloadOps 10 "audio/mpeg" [4, 6]) :=
    Or.inl ⟨[WOp.setTotalSize 10, WOp.setMime "audio/mpeg",
        WOp.setDownloadedSize 0],
      [WOp.addDownloadedSize 4, WOp.addDownloadedSize 6],
      rfl, by decide, by decide⟩
  have h := (c7_headers_ready_stable (ncmDownloadOps 10 "audio/mpeg" [4, 6])
    none hshape 6).1 (by decide)
  refine ⟨by decide, ?_⟩
  have hmem : execOps initCtx (bootstrapOps (ncmDownloadOps 10 "audio/mpeg" [4, 6])
      none) ∈ ctxStates (execOps initCtx ((bootstrapOps
        (ncmDownloadOps 10 "audio/mpeg" [4, 6]) none).take 6))
      ((bootstrapOps (ncmDownloadOps 10 "audio/mpeg" [4, 6]) none).drop 6) := by
    decide
  exact (h _ hmem).2.1

end Nikoget
